import Mathlib

/-!
Verification of the ECS (entity/component/system) storage kernel:
entity identity pool with bitset signatures, dense per-type component
arrays with swap-remove, the component-type registry (two revisions),
the system interest dispatcher, and the coordinating World facade.

The embedding follows the C++ sources directly:
* machine integers are `Nat` with an explicit `% 2^64` where a `uint64_t`
  or `size_t` could wrap;
* `assert`-guarded operations return `Option` (`none` models a failed
  assertion, i.e. a fatal precondition error);
* `std::unordered_map` fields are total functions into `Option`;
* `std::bitset<32>` signatures are `Finset (Fin 32)`;
* `std::set<Entity>` match sets are `Finset Nat`.
-/

/-- `MAX_ENTITIES` from entity.hpp. -/
def MAX_ENTITIES : Nat := 5000

/-- `MAX_COMPONENTS` from entity_manager.hpp (signature bit width). -/
def MAX_COMPONENTS : Nat := 32

/-- `MAX_COMPONENT_TYPES` used by the revised component manager; equal to
the signature width. -/
def MAX_COMPONENT_TYPES : Nat := 32

/-- `2 ^ 64`, the modulus of `uint64_t` / `size_t` arithmetic. -/
def U64 : Nat := 18446744073709551616

/-- `Entity` is `std::uint64_t`; ids in use are below `MAX_ENTITIES`. -/
abbrev Entity := Nat

/-- `INVALID_ENTITY` from entity.hpp (the maximum representable value). -/
def INVALID_ENTITY : Entity := U64 - 1

/-- A `Signature` is `std::bitset<MAX_COMPONENTS>`: the set of component
type slots an entity currently has. -/
abbrev Signature := Finset (Fin MAX_COMPONENTS)

/-- Pointwise update of an `unordered_map` modelled as a function; writing
`none` models `erase`, writing `some v` models `operator[] =`. -/
def updMap {β : Type} (m : Nat → Option β) (k : Nat) (v : Option β) : Nat → Option β :=
  fun x => if x = k then v else m x

theorem updMap_same {β : Type} (m : Nat → Option β) (k : Nat) (v : Option β) :
    updMap m k v k = v := by
  simp [updMap]

theorem updMap_other {β : Type} (m : Nat → Option β) (k x : Nat) (v : Option β)
    (h : x ≠ k) : updMap m k v x = m x := by
  simp [updMap, h]

/-- `std::bitset::set(pos, value)`: fails (throws `out_of_range`, hence
fatal under `noexcept`) when `pos` is not below the bit width. -/
def sigSet (signature : Signature) (pos : Nat) (value : Bool) : Option Signature :=
  if h : pos < MAX_COMPONENTS then
    some (if value then insert (⟨pos, h⟩ : Fin MAX_COMPONENTS) signature
          else signature.erase ⟨pos, h⟩)
  else none

/-!
## Dense Component Store — `ComponentArray<T>` (src/unnamed/part_003)
-/

/-- `ComponentArray<T>`: a dense value array used on `[0, size_)`, a
forward map entity → dense index and a reverse map index → entity. -/
structure ComponentArray (α : Type) where
  components_ : Nat → α
  entity_to_index_ : Entity → Option Nat
  index_to_entity_ : Nat → Option Entity
  size_ : Nat

/-- A freshly constructed, empty store (`std::array` value-initialized). -/
def ComponentArray.init {α : Type} [Inhabited α] : ComponentArray α :=
  { components_ := fun _ => default
    entity_to_index_ := fun _ => none
    index_to_entity_ := fun _ => none
    size_ := 0 }

/-- `ComponentArray<T>::insert`: asserts the entity is absent and the
array is not full, then appends at the tail index and records the
entity ↔ index pair in both maps. -/
def ComponentArray.insert {α : Type} (a : ComponentArray α) (entity : Entity)
    (component : α) : Option (ComponentArray α) :=
  if (a.entity_to_index_ entity).isSome then none
  else if MAX_ENTITIES ≤ a.size_ then none
  else
    let new_index := a.size_
    some { components_ := fun j => if j = new_index then component else a.components_ j
           entity_to_index_ := updMap a.entity_to_index_ entity (some new_index)
           index_to_entity_ := updMap a.index_to_entity_ new_index (some entity)
           size_ := (a.size_ + 1) % U64 }

/-- `ComponentArray<T>::remove`: asserts presence; if the removed slot is
not the last occupied one, moves the last value into it and redirects
both maps for the moved entity; then erases the removed entity's forward
entry and the last index's reverse entry and decrements `size_`
(`size_t` arithmetic, hence the explicit `% 2^64`). -/
def ComponentArray.remove {α : Type} (a : ComponentArray α) (entity : Entity) :
    Option (ComponentArray α) :=
  match a.entity_to_index_ entity with
  | none => none
  | some index_of_removed_entity =>
    let index_of_last_element := (a.size_ + (U64 - 1)) % U64
    if index_of_removed_entity ≠ index_of_last_element then
      -- `index_to_entity_[index_of_last_element]` via operator[]; a missing
      -- entry would default-construct entity 0 (and be erased again below)
      let entity_of_last_element := (a.index_to_entity_ index_of_last_element).getD 0
      some { components_ := fun j =>
               if j = index_of_removed_entity then a.components_ index_of_last_element
               else a.components_ j
             entity_to_index_ :=
               updMap (updMap a.entity_to_index_ entity_of_last_element
                 (some index_of_removed_entity)) entity none
             index_to_entity_ :=
               updMap (updMap a.index_to_entity_ index_of_removed_entity
                 (some entity_of_last_element)) index_of_last_element none
             size_ := (a.size_ + (U64 - 1)) % U64 }
    else
      some { components_ := a.components_
             entity_to_index_ := updMap a.entity_to_index_ entity none
             index_to_entity_ := updMap a.index_to_entity_ index_of_last_element none
             size_ := (a.size_ + (U64 - 1)) % U64 }

/-- `ComponentArray<T>::get`: asserts presence, then reads through the
forward map (`none` models the failed assertion). -/
def ComponentArray.get {α : Type} (a : ComponentArray α) (entity : Entity) : Option α :=
  (a.entity_to_index_ entity).map a.components_

/-- `ComponentArray<T>::has`. -/
def ComponentArray.has {α : Type} (a : ComponentArray α) (entity : Entity) : Bool :=
  (a.entity_to_index_ entity).isSome

/-- `ComponentArray<T>::size`. -/
def ComponentArray.size {α : Type} (a : ComponentArray α) : Nat := a.size_

/-- `ComponentArray<T>::entity_destroyed`: removes if present, else no-op.
The guard makes `remove`'s assertion hold, so the `getD` fallback is
never taken. -/
def ComponentArray.entity_destroyed {α : Type} (a : ComponentArray α) (entity : Entity) :
    ComponentArray α :=
  if (a.entity_to_index_ entity).isSome then (a.remove entity).getD a else a

example : ((ComponentArray.init (α := Nat)).insert 3 10).isSome = true := by decide
example : (((ComponentArray.init (α := Nat)).insert 3 10).getD ComponentArray.init).get 3
    = some 10 := by decide

/-!
## Entity Identity & Signature Store — `EntityManager` (entity_manager.hpp)
-/

/-- `EntityManager`: the FIFO recycling queue of available ids (front of
the `std::queue` is the list head), one signature slot per possible id,
and the `uint64_t` count of living entities. -/
structure EntityManager where
  available_entities_ : List Entity
  signatures_ : Entity → Signature
  living_entity_count_ : Nat

/-- The constructor: queue initialized with all ids `0 .. MAX_ENTITIES-1`
in increasing order (the push loop of
`initialize_queue_with_all_possible_entities`), all signatures zero, no
living entities. `List.range' 0 n` is that ascending list (it equals
`List.range n` by `List.range'_eq_range`, proved below) in a head-first
form whose evaluation is cheap. -/
def EntityManager.init : EntityManager :=
  { available_entities_ := List.range' 0 MAX_ENTITIES
    signatures_ := fun _ => ∅
    living_entity_count_ := 0 }

theorem initQueue_eq_range : List.range' 0 MAX_ENTITIES = List.range MAX_ENTITIES :=
  (List.range_eq_range' MAX_ENTITIES).symm

/-- `EntityManager::add_entity`: asserts the living count is below
`MAX_ENTITIES`, then pops the id at the front of the queue. Popping an
empty queue is undefined in the source (unreachable while the manager's
count/queue invariant holds) and is modelled as `none`. -/
def EntityManager.add_entity (em : EntityManager) : Option (Entity × EntityManager) :=
  if em.living_entity_count_ < MAX_ENTITIES then
    match em.available_entities_ with
    | [] => none
    | new_id :: rest =>
      some (new_id,
        { em with
          available_entities_ := rest
          living_entity_count_ := (em.living_entity_count_ + 1) % U64 })
  else none

/-- `EntityManager::remove_entity`: asserts only that the id is in range;
resets the id's signature, pushes the id at the back of the queue and
decrements the living count (`uint64_t`, hence the explicit wrap). -/
def EntityManager.remove_entity (em : EntityManager) (entity : Entity) :
    Option EntityManager :=
  if entity < MAX_ENTITIES then
    some { available_entities_ := em.available_entities_ ++ [entity]
           signatures_ := fun e => if e = entity then ∅ else em.signatures_ e
           living_entity_count_ := (em.living_entity_count_ + (U64 - 1)) % U64 }
  else none

/-- `EntityManager::set_signature`: asserts the id is in range. -/
def EntityManager.set_signature (em : EntityManager) (entity : Entity)
    (signature : Signature) : Option EntityManager :=
  if entity < MAX_ENTITIES then
    some { em with
           signatures_ := fun e => if e = entity then signature else em.signatures_ e }
  else none

/-- `EntityManager::get_signature`: asserts the id is in range. -/
def EntityManager.get_signature (em : EntityManager) (entity : Entity) :
    Option Signature :=
  if entity < MAX_ENTITIES then some (em.signatures_ entity) else none

/-- `add_entity` iterated `n` times, collecting the handed-out ids in
order. -/
def addEntityN : EntityManager → Nat → Option (List Entity × EntityManager)
  | em, 0 => some ([], em)
  | em, n + 1 =>
    match em.add_entity with
    | none => none
    | some (id, em1) =>
      match addEntityN em1 n with
      | none => none
      | some (ids, em2) => some (id :: ids, em2)

/-!
## System Interest Dispatcher — `SystemManager` (system_manager.hpp)

Systems are keyed by `std::type_index`, modelled as a `Nat` key. A
`System` (system.hpp) carries its `std::set<Entity>` of matched entities.
-/

/-- Base `System`: the set of entities matching the system's signature. -/
structure System where
  entities_ : Finset Entity

/-- `SystemManager`: per-system-kind required signature and system
instance (two `unordered_map`s over the same keys). -/
structure SystemManager where
  signatures_ : Nat → Option Signature
  systems_ : Nat → Option System

def SystemManager.init : SystemManager :=
  { signatures_ := fun _ => none, systems_ := fun _ => none }

/-- `SystemManager::entity_signature_changed`: for every registered
system, inserts the entity into its match set when
`(entity_signature & system_signature) == system_signature`, else erases
it. `signatures_[index]` uses `operator[]`, which default-constructs an
all-zero signature for a system whose signature was never set; the model
reads that default (`getD ∅`) without inserting it, which no other
observation of the map distinguishes. -/
def SystemManager.entity_signature_changed (sm : SystemManager) (entity : Entity)
    (entity_signature : Signature) : SystemManager :=
  { sm with
    systems_ := fun k =>
      match sm.systems_ k with
      | none => none
      | some system =>
        let system_signature := (sm.signatures_ k).getD ∅
        if entity_signature ∩ system_signature = system_signature then
          some { entities_ := insert entity system.entities_ }
        else
          some { entities_ := system.entities_.erase entity } }

/-- `SystemManager::entity_destroyed`: erases the entity from every
registered system's match set. -/
def SystemManager.entity_destroyed (sm : SystemManager) (entity : Entity) :
    SystemManager :=
  { sm with
    systems_ := fun k =>
      (sm.systems_ k).map (fun system => { entities_ := system.entities_.erase entity }) }

/-- `SystemManager::register_system`: asserts the kind is not yet
registered, then stores a fresh system with an empty match set. The
`signatures_` map is not touched. -/
def SystemManager.register_system (sm : SystemManager) (k : Nat) :
    Option SystemManager :=
  if (sm.systems_ k).isSome then none
  else
    some { sm with
           systems_ := fun k' => if k' = k then some { entities_ := ∅ } else sm.systems_ k' }

/-- `SystemManager::set_signature`: asserts the kind is registered, then
overwrites its required signature. -/
def SystemManager.set_signature (sm : SystemManager) (k : Nat)
    (signature : Signature) : Option SystemManager :=
  if (sm.systems_ k).isSome then
    some { sm with
           signatures_ := fun k' => if k' = k then some signature else sm.signatures_ k' }
  else none

/-!
## Component Store Registry — `ComponentManager`

Two revisions exist in the repository: src/src/ecs/component_manager.hpp
(no capacity check on registration) and src/unnamed/part_000 (asserts
`next_sequenced_component_type_ < MAX_COMPONENT_TYPES` as well).
Component types (`std::type_index`) are modelled as `Nat` keys; all
stores share one value type `α`, which erases only the C++ typed
downcast, not any observable behavior. -/

/-- `ComponentManager`: type key → assigned slot, type key → its dense
store, and the sequential slot counter. -/
structure ComponentManager (α : Type) where
  component_types_ : Nat → Option Nat
  component_arrays_ : Nat → Option (ComponentArray α)
  next_sequenced_component_type_ : Nat

def ComponentManager.init {α : Type} : ComponentManager α :=
  { component_types_ := fun _ => none
    component_arrays_ := fun _ => none
    next_sequenced_component_type_ := 0 }

/-- `ComponentManager::register_component_array`
(src/src/ecs/component_manager.hpp): asserts only that the type is not
already registered; assigns the next sequential slot and creates an empty
store. There is no capacity check in this revision. -/
def ComponentManager.register_component_array {α : Type} [Inhabited α]
    (cm : ComponentManager α) (tkey : Nat) : Option (ComponentManager α) :=
  if (cm.component_types_ tkey).isSome then none
  else
    some { component_types_ := updMap cm.component_types_ tkey
             (some cm.next_sequenced_component_type_)
           component_arrays_ := fun t =>
             if t = tkey then some ComponentArray.init else cm.component_arrays_ t
           next_sequenced_component_type_ := cm.next_sequenced_component_type_ + 1 }

/-- `ComponentManager::register_component_array` (src/unnamed/part_000
revision): additionally asserts the slot counter is still below
`MAX_COMPONENT_TYPES`. -/
def ComponentManager.register_component_array_variant {α : Type} [Inhabited α]
    (cm : ComponentManager α) (tkey : Nat) : Option (ComponentManager α) :=
  if (cm.component_types_ tkey).isSome then none
  else if cm.next_sequenced_component_type_ < MAX_COMPONENT_TYPES then
    some { component_types_ := updMap cm.component_types_ tkey
             (some cm.next_sequenced_component_type_)
           component_arrays_ := fun t =>
             if t = tkey then some ComponentArray.init else cm.component_arrays_ t
           next_sequenced_component_type_ := cm.next_sequenced_component_type_ + 1 }
  else none

/-- `ComponentManager::get_component_type`: asserts the type is
registered and returns its slot. -/
def ComponentManager.get_component_type {α : Type} (cm : ComponentManager α)
    (tkey : Nat) : Option Nat :=
  cm.component_types_ tkey

/-- `ComponentManager::add_component`: `get_component_array` asserts the
type is registered (and `.at` would throw on a missing store), then the
typed store's `insert` runs with its own assertions. -/
def ComponentManager.add_component {α : Type} (cm : ComponentManager α)
    (tkey : Nat) (entity : Entity) (component : α) : Option (ComponentManager α) :=
  match cm.component_types_ tkey, cm.component_arrays_ tkey with
  | some _, some arr =>
    match arr.insert entity component with
    | some arr' =>
      some { cm with component_arrays_ := updMap cm.component_arrays_ tkey (some arr') }
    | none => none
  | _, _ => none

/-- `ComponentManager::remove_component`: dispatches to the store's
`remove`. -/
def ComponentManager.remove_component {α : Type} (cm : ComponentManager α)
    (tkey : Nat) (entity : Entity) : Option (ComponentManager α) :=
  match cm.component_types_ tkey, cm.component_arrays_ tkey with
  | some _, some arr =>
    match arr.remove entity with
    | some arr' =>
      some { cm with component_arrays_ := updMap cm.component_arrays_ tkey (some arr') }
    | none => none
  | _, _ => none

/-- `ComponentManager::get_component` (through the store's `get`). -/
def ComponentManager.get_component {α : Type} (cm : ComponentManager α)
    (tkey : Nat) (entity : Entity) : Option α :=
  match cm.component_types_ tkey, cm.component_arrays_ tkey with
  | some _, some arr => arr.get entity
  | _, _ => none

/-- `ComponentManager::has_component` (through the store's `has`). -/
def ComponentManager.has_component {α : Type} (cm : ComponentManager α)
    (tkey : Nat) (entity : Entity) : Option Bool :=
  match cm.component_types_ tkey, cm.component_arrays_ tkey with
  | some _, some arr => some (arr.has entity)
  | _, _ => none

/-- `ComponentManager::entity_destroyed`: fans
`entity_destroyed` out to every registered store unconditionally. -/
def ComponentManager.entity_destroyed {α : Type} (cm : ComponentManager α)
    (entity : Entity) : ComponentManager α :=
  { cm with
    component_arrays_ := fun t =>
      (cm.component_arrays_ t).map (fun arr => arr.entity_destroyed entity) }

/-!
## Coordinator facade — `World` (world.hpp)
-/

/-- `World`: the three managers, sequenced in the source's fixed order. -/
structure World (α : Type) where
  component_manager_ : ComponentManager α
  entity_manager_ : EntityManager
  system_manager_ : SystemManager

def World.init {α : Type} : World α :=
  { component_manager_ := ComponentManager.init
    entity_manager_ := EntityManager.init
    system_manager_ := SystemManager.init }

/-- `World::add_entity`. -/
def World.add_entity {α : Type} (w : World α) : Option (Entity × World α) :=
  match w.entity_manager_.add_entity with
  | none => none
  | some (e, em') => some (e, { w with entity_manager_ := em' })

/-- `World::remove_entity`: entity manager first, then the destroy
cascade through the component manager and the system manager. -/
def World.remove_entity {α : Type} (w : World α) (entity : Entity) :
    Option (World α) :=
  match w.entity_manager_.remove_entity entity with
  | none => none
  | some em' =>
    some { component_manager_ := w.component_manager_.entity_destroyed entity
           entity_manager_ := em'
           system_manager_ := w.system_manager_.entity_destroyed entity }

/-- `World::register_component`. -/
def World.register_component {α : Type} [Inhabited α] (w : World α) (tkey : Nat) :
    Option (World α) :=
  match w.component_manager_.register_component_array tkey with
  | none => none
  | some cm' => some { w with component_manager_ := cm' }

/-- `World::add_component`: store mutation, then signature update in the
entity manager, then interest recomputation in the system manager. -/
def World.add_component {α : Type} (w : World α) (tkey : Nat) (entity : Entity)
    (component : α) : Option (World α) :=
  match w.component_manager_.add_component tkey entity component with
  | none => none
  | some cm' =>
    match w.component_manager_.get_component_type tkey with
    | none => none
    | some slot =>
      match w.entity_manager_.get_signature entity with
      | none => none
      | some sig0 =>
        match sigSet sig0 slot true with
        | none => none
        | some signature =>
          match w.entity_manager_.set_signature entity signature with
          | none => none
          | some em' =>
            some { component_manager_ := cm'
                   entity_manager_ := em'
                   system_manager_ :=
                     w.system_manager_.entity_signature_changed entity signature }

/-- `World::remove_component`: same sequence with the signature bit
cleared. -/
def World.remove_component {α : Type} (w : World α) (tkey : Nat) (entity : Entity) :
    Option (World α) :=
  match w.component_manager_.remove_component tkey entity with
  | none => none
  | some cm' =>
    match w.component_manager_.get_component_type tkey with
    | none => none
    | some slot =>
      match w.entity_manager_.get_signature entity with
      | none => none
      | some sig0 =>
        match sigSet sig0 slot false with
        | none => none
        | some signature =>
          match w.entity_manager_.set_signature entity signature with
          | none => none
          | some em' =>
            some { component_manager_ := cm'
                   entity_manager_ := em'
                   system_manager_ :=
                     w.system_manager_.entity_signature_changed entity signature }

/-- `World::register_system`. -/
def World.register_system {α : Type} (w : World α) (k : Nat) : Option (World α) :=
  match w.system_manager_.register_system k with
  | none => none
  | some sm' => some { w with system_manager_ := sm' }

/-- The fold inside `World::set_system_signature`, building a signature
with one bit per listed component type. -/
def buildSignatureAux {α : Type} (cm : ComponentManager α) (acc : Signature) :
    List Nat → Option Signature
  | [] => some acc
  | tkey :: rest =>
    match cm.get_component_type tkey with
    | none => none
    | some slot =>
      match sigSet acc slot true with
      | none => none
      | some acc' => buildSignatureAux cm acc' rest

/-- `World::set_system_signature`: builds the required signature from the
listed component types and stores it for the system kind. -/
def World.set_system_signature {α : Type} (w : World α) (k : Nat)
    (tkeys : List Nat) : Option (World α) :=
  match buildSignatureAux w.component_manager_ ∅ tkeys with
  | none => none
  | some signature =>
    match w.system_manager_.set_signature k signature with
    | none => none
    | some sm' => some { w with system_manager_ := sm' }

/-!
## The dense-store invariant

`StoreInv a g` is §3's density invariant together with the ghost map `g`
recording each present entity's current value: the two maps are mutual
inverses over exactly the present entities, forward entries point into
the gap-free prefix `[0, size_)`, every index of that prefix is occupied,
and the value stored at an entity's index is the entity's current value.
-/

def StoreInv {α : Type} (a : ComponentArray α) (g : Entity → Option α) : Prop :=
  a.size_ ≤ MAX_ENTITIES ∧
  (∀ e i, a.entity_to_index_ e = some i →
      i < a.size_ ∧ a.index_to_entity_ i = some e ∧ g e = some (a.components_ i)) ∧
  (∀ i e, a.index_to_entity_ i = some e → i < a.size_ ∧ a.entity_to_index_ e = some i) ∧
  (∀ i, i < a.size_ → (a.index_to_entity_ i).isSome = true) ∧
  (∀ e, (g e).isSome = true → (a.entity_to_index_ e).isSome = true)

theorem u64_succ_mod (n : Nat) (h : n < MAX_ENTITIES) : (n + 1) % U64 = n + 1 := by
  simp only [MAX_ENTITIES] at h
  simp only [U64]
  omega

theorem u64_pred_mod (n : Nat) (h1 : 1 ≤ n) (h2 : n ≤ MAX_ENTITIES) :
    (n + (U64 - 1)) % U64 = n - 1 := by
  simp only [MAX_ENTITIES] at h2
  simp only [U64]
  omega

/-- A successful `insert` preserves the store invariant; the ghost map
gains the new entity's value and the size grows by one. -/
theorem storeInv_insert {α : Type} {a a' : ComponentArray α} {g : Entity → Option α}
    {e : Entity} {v : α} (hinv : StoreInv a g) (h : a.insert e v = some a') :
    StoreInv a' (fun x => if x = e then some v else g x) ∧ a'.size_ = a.size_ + 1 := by
  obtain ⟨hsz, h2, h3, h4, h5⟩ := hinv
  unfold ComponentArray.insert at h
  by_cases hp : (a.entity_to_index_ e).isSome = true
  · simp [hp] at h
  · by_cases hfull : MAX_ENTITIES ≤ a.size_
    · simp [hp, hfull] at h
    · simp only [hp, hfull, Bool.false_eq_true, if_false, Option.some.injEq] at h
      have hnone : a.entity_to_index_ e = none := Option.not_isSome_iff_eq_none.mp hp
      have hmod : (a.size_ + 1) % U64 = a.size_ + 1 :=
        u64_succ_mod a.size_ (by omega)
      subst h
      refine ⟨⟨?_, ?_, ?_, ?_, ?_⟩, ?_⟩
      · dsimp only
        rw [hmod]; omega
      · intro e' i' he'
        dsimp only at he' ⊢
        rw [hmod]
        by_cases hee : e' = e
        · subst hee
          rw [updMap_same] at he'
          cases he'
          refine ⟨by omega, ?_, ?_⟩
          · exact updMap_same _ _ _
          · simp
        · rw [updMap_other _ _ _ _ hee] at he'
          obtain ⟨hlt, hrev, hval⟩ := h2 e' i' he'
          refine ⟨by omega, ?_, ?_⟩
          · rw [updMap_other _ _ _ _ (by omega)]
            exact hrev
          · simp only [if_neg hee, if_neg (show i' ≠ a.size_ by omega)]
            exact hval
      · intro i' e' hi'
        dsimp only at hi' ⊢
        rw [hmod]
        by_cases hii : i' = a.size_
        · subst hii
          rw [updMap_same] at hi'
          cases hi'
          exact ⟨by omega, updMap_same _ _ _⟩
        · rw [updMap_other _ _ _ _ hii] at hi'
          obtain ⟨hlt, hfwd⟩ := h3 i' e' hi'
          have hne : e' ≠ e := by
            intro hcontra
            rw [hcontra, hnone] at hfwd
            cases hfwd
          refine ⟨by omega, ?_⟩
          rw [updMap_other _ _ _ _ hne]
          exact hfwd
      · intro i hi
        dsimp only at hi ⊢
        rw [hmod] at hi
        by_cases hii : i = a.size_
        · subst hii
          rw [updMap_same]
          rfl
        · rw [updMap_other _ _ _ _ hii]
          exact h4 i (by omega)
      · intro e' hg'
        dsimp only at hg' ⊢
        by_cases hee : e' = e
        · subst hee
          rw [updMap_same]
          rfl
        · simp only [if_neg hee] at hg'
          rw [updMap_other _ _ _ _ hee]
          exact h5 e' hg'
      · dsimp only
        exact hmod

/-- A successful `remove` preserves the store invariant; the ghost map
loses the removed entity and the size shrinks by one. -/
theorem storeInv_remove {α : Type} {a a' : ComponentArray α} {g : Entity → Option α}
    {e : Entity} (hinv : StoreInv a g) (h : a.remove e = some a') :
    StoreInv a' (fun x => if x = e then none else g x) ∧ a'.size_ + 1 = a.size_ := by
  obtain ⟨hsz, h2, h3, h4, h5⟩ := hinv
  unfold ComponentArray.remove at h
  split at h
  · exact absurd h (by simp)
  case _ i he =>
    obtain ⟨hi_lt, hrev_i, hval_i⟩ := h2 e i he
    have hsge1 : 1 ≤ a.size_ := by omega
    have hmod : (a.size_ + (U64 - 1)) % U64 = a.size_ - 1 := u64_pred_mod _ hsge1 hsz
    simp only [hmod] at h
    by_cases hil : i = a.size_ - 1
    · -- the removed slot is the last occupied one: no data move
      rw [if_neg (not_not_intro hil)] at h
      simp only [Option.some.injEq] at h
      subst h
      refine ⟨⟨?_, ?_, ?_, ?_, ?_⟩, ?_⟩
      · dsimp only
        omega
      · intro e' i' he'
        dsimp only at he' ⊢
        by_cases hee : e' = e
        · subst hee
          rw [updMap_same] at he'
          cases he'
        · rw [updMap_other _ _ _ _ hee] at he'
          obtain ⟨hlt', hrev', hval'⟩ := h2 e' i' he'
          have hne_i : i' ≠ i := by
            intro hc
            rw [hc, hrev_i] at hrev'
            cases hrev'
            exact hee rfl
          refine ⟨by omega, ?_, ?_⟩
          · rw [updMap_other _ _ _ _ (by omega)]
            exact hrev'
          · simp only [if_neg hee]
            exact hval'
      · intro i' e' hi'
        dsimp only at hi' ⊢
        by_cases hii : i' = a.size_ - 1
        · subst hii
          rw [updMap_same] at hi'
          cases hi'
        · rw [updMap_other _ _ _ _ hii] at hi'
          obtain ⟨hlt', hfwd'⟩ := h3 i' e' hi'
          have hne : e' ≠ e := by
            intro hc
            rw [hc, he] at hfwd'
            cases hfwd'
            omega
          refine ⟨by omega, ?_⟩
          rw [updMap_other _ _ _ _ hne]
          exact hfwd'
      · intro i' hi'
        dsimp only at hi' ⊢
        rw [updMap_other _ _ _ _ (by omega)]
        exact h4 i' (by omega)
      · intro e' hg'
        dsimp only at hg' ⊢
        by_cases hee : e' = e
        · simp [hee] at hg'
        · simp only [if_neg hee] at hg'
          rw [updMap_other _ _ _ _ hee]
          exact h5 e' hg'
      · dsimp only
        omega
    · -- swap-to-end-and-pop: the last value moves into the freed slot
      rw [if_pos hil] at h
      have hlast_lt : a.size_ - 1 < a.size_ := by omega
      obtain ⟨elast, hrev_last⟩ := Option.isSome_iff_exists.mp (h4 _ hlast_lt)
      obtain ⟨hlast_lt', hfwd_last⟩ := h3 _ elast hrev_last
      have hne_le : elast ≠ e := by
        intro hc
        rw [hc, he] at hfwd_last
        cases hfwd_last
        exact hil rfl
      have hi_lt' : i < a.size_ - 1 := by omega
      simp only [hrev_last, Option.getD_some, Option.some.injEq] at h
      subst h
      obtain ⟨_, _, hval_last⟩ := h2 elast _ hfwd_last
      refine ⟨⟨?_, ?_, ?_, ?_, ?_⟩, ?_⟩
      · dsimp only
        omega
      · intro e' i' he'
        dsimp only at he' ⊢
        by_cases hee : e' = e
        · subst hee
          rw [updMap_same] at he'
          cases he'
        · rw [updMap_other _ _ _ _ hee] at he'
          by_cases hel : e' = elast
          · subst hel
            rw [updMap_same] at he'
            cases he'
            refine ⟨hi_lt', ?_, ?_⟩
            · rw [updMap_other _ _ _ _ (by omega), updMap_same]
            · simp only [if_neg hee, if_pos rfl]
              exact hval_last
          · rw [updMap_other _ _ _ _ hel] at he'
            obtain ⟨hlt', hrev', hval'⟩ := h2 e' i' he'
            have hne_last : i' ≠ a.size_ - 1 := by
              intro hc
              rw [hc, hrev_last] at hrev'
              cases hrev'
              exact hel rfl
            have hne_i : i' ≠ i := by
              intro hc
              rw [hc, hrev_i] at hrev'
              cases hrev'
              exact hee rfl
            refine ⟨by omega, ?_, ?_⟩
            · rw [updMap_other _ _ _ _ hne_last, updMap_other _ _ _ _ hne_i]
              exact hrev'
            · simp only [if_neg hee, if_neg hne_i]
              exact hval'
      · intro i' e' hi'
        dsimp only at hi' ⊢
        by_cases hii : i' = a.size_ - 1
        · subst hii
          rw [updMap_same] at hi'
          cases hi'
        · rw [updMap_other _ _ _ _ hii] at hi'
          by_cases hislot : i' = i
          · subst hislot
            rw [updMap_same] at hi'
            cases hi'
            refine ⟨hi_lt', ?_⟩
            rw [updMap_other _ _ _ _ hne_le, updMap_same]
          · rw [updMap_other _ _ _ _ hislot] at hi'
            obtain ⟨hlt', hfwd'⟩ := h3 i' e' hi'
            have hne : e' ≠ e := by
              intro hc
              rw [hc, he] at hfwd'
              cases hfwd'
              exact hislot rfl
            have hne2 : e' ≠ elast := by
              intro hc
              rw [hc, hfwd_last] at hfwd'
              cases hfwd'
              exact hii rfl
            refine ⟨by omega, ?_⟩
            rw [updMap_other _ _ _ _ hne, updMap_other _ _ _ _ hne2]
            exact hfwd'
      · intro i' hi'
        dsimp only at hi' ⊢
        rw [updMap_other _ _ _ _ (by omega)]
        by_cases hislot : i' = i
        · subst hislot
          rw [updMap_same]
          rfl
        · rw [updMap_other _ _ _ _ hislot]
          exact h4 i' (by omega)
      · intro e' hg'
        dsimp only at hg' ⊢
        by_cases hee : e' = e
        · simp [hee] at hg'
        · simp only [if_neg hee] at hg'
          rw [updMap_other _ _ _ _ hee]
          by_cases hel : e' = elast
          · subst hel
            rw [updMap_same]
            rfl
          · rw [updMap_other _ _ _ _ hel]
            exact h5 e' hg'
      · dsimp only
        omega

/-!
## Interleaved store histories (for the density claim)
-/

/-- One call on a single dense store. -/
inductive StoreOp (α : Type) where
  | ins (e : Entity) (v : α)
  | rem (e : Entity)

/-- Run one store call (with its assertions). -/
def applyOp {α : Type} (a : ComponentArray α) : StoreOp α → Option (ComponentArray α)
  | .ins e v => a.insert e v
  | .rem e => a.remove e

/-- Run a sequence of store calls; `none` as soon as one fails. -/
def applyOps {α : Type} : ComponentArray α → List (StoreOp α) → Option (ComponentArray α)
  | a, [] => some a
  | a, op :: rest =>
    match applyOp a op with
    | none => none
    | some a' => applyOps a' rest

/-- The ghost finite-map semantics of one call. -/
def gApplyOp {α : Type} (g : Entity → Option α) : StoreOp α → Entity → Option α
  | .ins e v => fun x => if x = e then some v else g x
  | .rem e => fun x => if x = e then none else g x

def gApplyOps {α : Type} : (Entity → Option α) → List (StoreOp α) → Entity → Option α
  | g, [] => g
  | g, op :: rest => gApplyOps (gApplyOp g op) rest

def countIns {α : Type} : List (StoreOp α) → Nat
  | [] => 0
  | .ins _ _ :: rest => countIns rest + 1
  | .rem _ :: rest => countIns rest

def countRem {α : Type} : List (StoreOp α) → Nat
  | [] => 0
  | .ins _ _ :: rest => countRem rest
  | .rem _ :: rest => countRem rest + 1

/-- Running any successful sequence of calls preserves the store
invariant and books sizes exactly. -/
theorem storeInv_applyOps {α : Type} :
    ∀ (ops : List (StoreOp α)) (a a' : ComponentArray α) (g : Entity → Option α),
    StoreInv a g → applyOps a ops = some a' →
    StoreInv a' (gApplyOps g ops) ∧ a'.size_ + countRem ops = a.size_ + countIns ops := by
  intro ops
  induction ops with
  | nil =>
    intro a a' g hinv h
    simp only [applyOps, Option.some.injEq] at h
    subst h
    exact ⟨hinv, by simp [countIns, countRem, gApplyOps]⟩
  | cons op rest ih =>
    intro a a' g hinv h
    simp only [applyOps] at h
    cases hop : applyOp a op with
    | none => rw [hop] at h; cases h
    | some a1 =>
      rw [hop] at h
      cases op with
      | ins e v =>
        obtain ⟨hinv1, hsz1⟩ := storeInv_insert hinv hop
        obtain ⟨hinv', hsz'⟩ := ih a1 a' _ hinv1 h
        refine ⟨hinv', ?_⟩
        simp only [countIns, countRem, gApplyOps] at *
        omega
      | rem e =>
        obtain ⟨hinv1, hsz1⟩ := storeInv_remove hinv hop
        obtain ⟨hinv', hsz'⟩ := ih a1 a' _ hinv1 h
        refine ⟨hinv', ?_⟩
        simp only [countIns, countRem, gApplyOps] at *
        omega

/-- The invariant holds of the freshly constructed store with the empty
ghost map. -/
theorem storeInv_init {α : Type} [Inhabited α] :
    StoreInv (ComponentArray.init (α := α)) (fun _ => none) := by
  refine ⟨?_, ?_, ?_, ?_, ?_⟩ <;>
    simp [ComponentArray.init, MAX_ENTITIES]

/-- C3. For a single dense component store, after any interleaved
sequence of N successful inserts and M ≤ N successful removes from the
empty store, `size() = N - M`, and `StoreInv` holds: the
entity-to-index and index-to-entity maps are exact mutual inverses over
precisely the present entities, every index in `[0, size)` is occupied by
a distinct present entity (no gaps, no duplicates), and the value at each
such index is that entity's current value (the ghost map built from the
same call sequence). -/
theorem componentArray_density_invariant {α : Type} [Inhabited α]
    (ops : List (StoreOp α)) (a : ComponentArray α)
    (h : applyOps ComponentArray.init ops = some a) :
    a.size_ = countIns ops - countRem ops ∧ countRem ops ≤ countIns ops ∧
    StoreInv a (gApplyOps (fun _ => none) ops) := by
  obtain ⟨hinv, hcount⟩ := storeInv_applyOps ops _ a _ storeInv_init h
  have h0 : (ComponentArray.init (α := α)).size_ = 0 := rfl
  rw [h0] at hcount
  exact ⟨by omega, by omega, hinv⟩

/-- The concrete call sequence used as a witness for C3: three inserts
and one remove. -/
def c3ops : List (StoreOp Nat) := [.ins 1 10, .ins 2 20, .rem 1, .ins 3 30]

def c3arr : ComponentArray Nat := (applyOps ComponentArray.init c3ops).getD ComponentArray.init

theorem componentArray_density_invariant_witness :
    applyOps ComponentArray.init c3ops = some c3arr ∧
    (c3arr.size_ = countIns c3ops - countRem c3ops ∧ countRem c3ops ≤ countIns c3ops ∧
      StoreInv c3arr (gApplyOps (fun _ => none) c3ops)) :=
  ⟨rfl, componentArray_density_invariant c3ops c3arr rfl⟩

/-- C4. On a store holding at least two entities, removing an entity `e`
whose dense index `i` is not the last occupied index moves the value
previously stored at the last occupied index into `e`'s slot, and updates
both maps so the previously-last entity `elast` maps to `i` and `i` maps
back to `elast`; afterward `has`/`get` for `elast` return the same
results as before the removal. -/
theorem componentArray_swap_remove_correct {α : Type} (a a' : ComponentArray α)
    (e elast : Entity) (i : Nat)
    (hsz2 : 2 ≤ a.size_) (hszM : a.size_ ≤ MAX_ENTITIES)
    (he : a.entity_to_index_ e = some i)
    (hil : i ≠ a.size_ - 1)
    (hlast : a.index_to_entity_ (a.size_ - 1) = some elast)
    (hfwd : a.entity_to_index_ elast = some (a.size_ - 1))
    (hne : elast ≠ e)
    (hrm : a.remove e = some a') :
    a'.entity_to_index_ elast = some i ∧
    a'.index_to_entity_ i = some elast ∧
    a'.has elast = true ∧
    a'.get elast = a.get elast ∧
    a'.components_ i = a.components_ (a.size_ - 1) ∧
    a'.size_ = a.size_ - 1 := by
  unfold ComponentArray.remove at hrm
  split at hrm
  · cases hrm
  case _ i0 heq =>
    rw [he] at heq
    cases heq
    have hmod : (a.size_ + (U64 - 1)) % U64 = a.size_ - 1 :=
      u64_pred_mod _ (by omega) hszM
    simp only [hmod] at hrm
    rw [if_pos hil] at hrm
    simp only [hlast, Option.getD_some, Option.some.injEq] at hrm
    subst hrm
    have hfe : updMap (updMap a.entity_to_index_ elast (some i)) e none elast
        = some i := by
      rw [updMap_other _ _ _ _ hne, updMap_same]
    have hre : updMap (updMap a.index_to_entity_ i (some elast)) (a.size_ - 1) none i
        = some elast := by
      rw [updMap_other _ _ _ _ hil, updMap_same]
    refine ⟨hfe, hre, ?_, ?_, ?_, rfl⟩
    · show (updMap (updMap a.entity_to_index_ elast (some i)) e none elast).isSome = true
      rw [hfe]
      rfl
    · show (updMap (updMap a.entity_to_index_ elast (some i)) e none elast).map _
        = (a.entity_to_index_ elast).map a.components_
      rw [hfe, hfwd]
      simp
    · simp

/-- The concrete store used as witness for C4: entities 4, 5, 6 at
indices 0, 1, 2 with values 10, 20, 30; removing entity 4 relocates
entity 6. -/
def c4arr : ComponentArray Nat :=
  { components_ := fun j => if j = 0 then 10 else if j = 1 then 20 else if j = 2 then 30 else 0
    entity_to_index_ := fun e =>
      if e = 4 then some 0 else if e = 5 then some 1 else if e = 6 then some 2 else none
    index_to_entity_ := fun i =>
      if i = 0 then some 4 else if i = 1 then some 5 else if i = 2 then some 6 else none
    size_ := 3 }

def c4arr' : ComponentArray Nat := (c4arr.remove 4).getD c4arr

theorem componentArray_swap_remove_correct_witness :
    (2 ≤ c4arr.size_ ∧ c4arr.size_ ≤ MAX_ENTITIES ∧
      c4arr.entity_to_index_ 4 = some 0 ∧ (0 : Nat) ≠ c4arr.size_ - 1 ∧
      c4arr.index_to_entity_ (c4arr.size_ - 1) = some 6 ∧
      c4arr.entity_to_index_ 6 = some (c4arr.size_ - 1) ∧ (6 : Entity) ≠ 4 ∧
      c4arr.remove 4 = some c4arr') ∧
    (c4arr'.entity_to_index_ 6 = some 0 ∧
      c4arr'.index_to_entity_ 0 = some 6 ∧
      c4arr'.has 6 = true ∧
      c4arr'.get 6 = c4arr.get 6 ∧
      c4arr'.components_ 0 = c4arr.components_ (c4arr.size_ - 1) ∧
      c4arr'.size_ = c4arr.size_ - 1) :=
  ⟨⟨by decide, by decide, by decide, by decide, by decide, by decide, by decide, rfl⟩,
    componentArray_swap_remove_correct c4arr c4arr' 4 6 0
      (by decide) (by decide) (by decide) (by decide) (by decide) (by decide) (by decide) rfl⟩

/-- C10. A successful `insert(e, v)` modifies only the new tail slot, the
two map entries for `e`, and the size: every other forward-map entry,
reverse-map entry and array slot is unchanged; in particular every entity
already present keeps its dense index and stored value. -/
theorem componentArray_insert_frame {α : Type} (a a' : ComponentArray α)
    (e : Entity) (v : α) (hins : a.insert e v = some a') :
    a'.size_ = a.size_ + 1 ∧
    a'.entity_to_index_ e = some a.size_ ∧
    a'.index_to_entity_ a.size_ = some e ∧
    a'.components_ a.size_ = v ∧
    (∀ e', e' ≠ e → a'.entity_to_index_ e' = a.entity_to_index_ e') ∧
    (∀ j, j ≠ a.size_ →
      a'.index_to_entity_ j = a.index_to_entity_ j ∧ a'.components_ j = a.components_ j) ∧
    (∀ e' j, a.entity_to_index_ e' = some j → j < a.size_ →
      a'.entity_to_index_ e' = some j ∧ a'.index_to_entity_ j = a.index_to_entity_ j ∧
        a'.components_ j = a.components_ j) := by
  unfold ComponentArray.insert at hins
  by_cases hp : (a.entity_to_index_ e).isSome = true
  · simp [hp] at hins
  · by_cases hfull : MAX_ENTITIES ≤ a.size_
    · simp [hp, hfull] at hins
    · simp only [hp, hfull, Bool.false_eq_true, if_false, Option.some.injEq] at hins
      have hnone : a.entity_to_index_ e = none := Option.not_isSome_iff_eq_none.mp hp
      have hmod : (a.size_ + 1) % U64 = a.size_ + 1 := u64_succ_mod a.size_ (by omega)
      subst hins
      refine ⟨hmod, updMap_same _ _ _, updMap_same _ _ _, by dsimp only; rw [if_pos rfl],
        ?_, ?_, ?_⟩
      · intro e' hee
        exact updMap_other _ _ _ _ hee
      · intro j hj
        exact ⟨updMap_other _ _ _ _ hj, by dsimp only; rw [if_neg hj]⟩
      · intro e' j he' hj
        have hee : e' ≠ e := by
          intro hc
          rw [hc, hnone] at he'
          cases he'
        refine ⟨?_, updMap_other _ _ _ _ (by omega), by dsimp only; rw [if_neg (by omega)]⟩
        dsimp only
        rw [updMap_other _ _ _ _ hee]
        exact he'

def c10arr : ComponentArray Nat :=
  { components_ := fun j => if j = 0 then 10 else if j = 1 then 20 else 0
    entity_to_index_ := fun e => if e = 4 then some 0 else if e = 5 then some 1 else none
    index_to_entity_ := fun i => if i = 0 then some 4 else if i = 1 then some 5 else none
    size_ := 2 }

def c10arr' : ComponentArray Nat := (c10arr.insert 9 90).getD c10arr

theorem componentArray_insert_frame_witness :
    c10arr.insert 9 90 = some c10arr' ∧
    (c10arr'.size_ = c10arr.size_ + 1 ∧
      c10arr'.entity_to_index_ 9 = some c10arr.size_ ∧
      c10arr'.index_to_entity_ c10arr.size_ = some 9 ∧
      c10arr'.components_ c10arr.size_ = 90 ∧
      (∀ e', e' ≠ 9 → c10arr'.entity_to_index_ e' = c10arr.entity_to_index_ e') ∧
      (∀ j, j ≠ c10arr.size_ →
        c10arr'.index_to_entity_ j = c10arr.index_to_entity_ j ∧
          c10arr'.components_ j = c10arr.components_ j) ∧
      (∀ e' j, c10arr.entity_to_index_ e' = some j → j < c10arr.size_ →
        c10arr'.entity_to_index_ e' = some j ∧
          c10arr'.index_to_entity_ j = c10arr.index_to_entity_ j ∧
          c10arr'.components_ j = c10arr.components_ j)) :=
  ⟨rfl, componentArray_insert_frame c10arr c10arr' 9 90 rfl⟩

/-!
## Entity lifecycle claims (C6, C7)
-/

/-- C7 counterexample: on a freshly constructed manager no entity is
live (`living_entity_count_ = 0` and id 0 still sits in the recycling
queue), yet `remove_entity 0` passes its only assertion (the range check)
and succeeds instead of failing fatally. -/
theorem entityManager_remove_accepts_nonlive :
    EntityManager.init.living_entity_count_ = 0 ∧
    (0 : Entity) < MAX_ENTITIES ∧
    (0 : Entity) ∈ EntityManager.init.available_entities_ ∧
    (EntityManager.init.remove_entity 0).isSome = true := by
  refine ⟨rfl, by decide, ?_, by decide⟩
  simp only [EntityManager.init]
  decide

/-- C7 amended. `remove_entity` checks only that the id is in range
(`e < MAX_ENTITIES`); liveness is not checked, so destroying an in-range
id that is not currently live is silently accepted: the signature is
reset, the id is pushed onto the recycling queue (again) and the living
count is decremented with `uint64_t` wrap-around. -/
theorem entityManager_remove_only_checks_range (em : EntityManager) (e : Entity) :
    (em.remove_entity e = none ↔ MAX_ENTITIES ≤ e) ∧
    (∀ em', em.remove_entity e = some em' →
      em'.available_entities_ = em.available_entities_ ++ [e] ∧
      em'.signatures_ e = ∅ ∧
      em'.living_entity_count_ = (em.living_entity_count_ + (U64 - 1)) % U64) := by
  unfold EntityManager.remove_entity
  by_cases hr : e < MAX_ENTITIES
  · rw [if_pos hr]
    refine ⟨⟨(fun h => by cases h), fun h => absurd h (Nat.not_le.mpr hr)⟩, ?_⟩
    intro em' h
    simp only [Option.some.injEq] at h
    subst h
    exact ⟨rfl, by simp, rfl⟩
  · rw [if_neg hr]
    exact ⟨⟨fun _ => Nat.not_lt.mp hr, fun _ => rfl⟩, by intro em' h; cases h⟩

def c7em : EntityManager := (EntityManager.init.remove_entity 0).getD EntityManager.init

theorem entityManager_remove_only_checks_range_witness :
    (EntityManager.init.remove_entity 0 = none ↔ MAX_ENTITIES ≤ (0 : Entity)) ∧
    (c7em.available_entities_ = EntityManager.init.available_entities_ ++ [0] ∧
      c7em.signatures_ 0 = ∅ ∧
      c7em.living_entity_count_ =
        (EntityManager.init.living_entity_count_ + (U64 - 1)) % U64) :=
  ⟨(entityManager_remove_only_checks_range EntityManager.init 0).1,
    (entityManager_remove_only_checks_range EntityManager.init 0).2 c7em rfl⟩

/-- Handing out ids from the front of the queue: `add_entity` iterated
once per queued id returns exactly the queued ids in queue order and
leaves the signatures untouched. -/
theorem addEntityN_spec :
    ∀ (q : List Entity) (em : EntityManager) (r : List Entity),
    em.available_entities_ = q ++ r →
    em.living_entity_count_ + q.length ≤ MAX_ENTITIES →
    addEntityN em q.length =
      some (q, { available_entities_ := r
                 signatures_ := em.signatures_
                 living_entity_count_ := em.living_entity_count_ + q.length }) := by
  intro q
  induction q with
  | nil =>
    intro em r hq hle
    cases em with
    | mk av sg lv =>
      simp only [List.nil_append] at hq
      subst hq
      simp [addEntityN]
  | cons a q' ih =>
    intro em r hq hle
    cases em with
    | mk av sg lv =>
      simp only [List.cons_append] at hq
      subst hq
      simp only [List.length_cons] at hle ⊢
      have hlv : lv < MAX_ENTITIES := by omega
      show (match EntityManager.add_entity ⟨a :: (q' ++ r), sg, lv⟩ with
            | none => none
            | some (id, em1) =>
              match addEntityN em1 q'.length with
              | none => none
              | some (ids, em2) => some (id :: ids, em2)) = _
      rw [show EntityManager.add_entity ⟨a :: (q' ++ r), sg, lv⟩
            = some (a, ⟨q' ++ r, sg, (lv + 1) % U64⟩) by
        unfold EntityManager.add_entity
        rw [if_pos hlv]]
      rw [u64_succ_mod lv hlv]
      show (match addEntityN ⟨q' ++ r, sg, lv + 1⟩ q'.length with
            | none => none
            | some (ids, em2) => some (a :: ids, em2)) = _
      rw [ih ⟨q' ++ r, sg, lv + 1⟩ r rfl (by dsimp only; omega)]
      show some (a :: q', (⟨r, sg, lv + 1 + q'.length⟩ : EntityManager))
        = some (a :: q', ⟨r, sg, lv + (q'.length + 1)⟩)
      rw [show lv + 1 + q'.length = lv + (q'.length + 1) by omega]

/-- C6. Entity id reuse is FIFO: a successful `remove_entity e` pushes
`e` at the back of the recycling queue; creating one entity per id that
was already queued hands out exactly those ids, in queue order, none of
them `e`; the next `add_entity` then returns `e`, and `e`'s signature at
that moment is all-zero. -/
theorem entityManager_fifo_recycling (em em' : EntityManager) (e : Entity)
    (hinv : em.living_entity_count_ + em.available_entities_.length = MAX_ENTITIES)
    (hlive : 0 < em.living_entity_count_)
    (hnotin : e ∉ em.available_entities_)
    (hrm : em.remove_entity e = some em') :
    em'.available_entities_ = em.available_entities_ ++ [e] ∧
    (∀ x ∈ em.available_entities_, x ≠ e) ∧
    ∃ em'', addEntityN em' em.available_entities_.length =
        some (em.available_entities_, em'') ∧
      ∃ emf, em''.add_entity = some (e, emf) ∧ emf.signatures_ e = ∅ := by
  unfold EntityManager.remove_entity at hrm
  by_cases hr : e < MAX_ENTITIES
  · rw [if_pos hr] at hrm
    simp only [Option.some.injEq] at hrm
    subst hrm
    have hlvle : em.living_entity_count_ ≤ MAX_ENTITIES := by omega
    have hmod : (em.living_entity_count_ + (U64 - 1)) % U64 = em.living_entity_count_ - 1 :=
      u64_pred_mod _ hlive hlvle
    refine ⟨rfl, fun x hx hc => hnotin (hc ▸ hx), ?_⟩
    rw [hmod]
    have hspec := addEntityN_spec em.available_entities_
      ⟨em.available_entities_ ++ [e],
        fun x => if x = e then ∅ else em.signatures_ x,
        em.living_entity_count_ - 1⟩ [e] rfl
      (by dsimp only; omega)
    dsimp only at hspec
    refine ⟨_, hspec, ?_⟩
    have hlt : em.living_entity_count_ - 1 + em.available_entities_.length
        < MAX_ENTITIES := by omega
    refine ⟨⟨[], fun x => if x = e then ∅ else em.signatures_ x,
      (em.living_entity_count_ - 1 + em.available_entities_.length + 1) % U64⟩, ?_, ?_⟩
    · unfold EntityManager.add_entity
      dsimp only
      rw [if_pos hlt]
    · dsimp only
      rw [if_pos rfl]
  · rw [if_neg hr] at hrm
    cases hrm

def c6em : EntityManager :=
  { available_entities_ := [7, 3], signatures_ := fun _ => ∅,
    living_entity_count_ := 4998 }

def c6em' : EntityManager := (c6em.remove_entity 5).getD c6em

theorem entityManager_fifo_recycling_witness :
    (c6em.living_entity_count_ + c6em.available_entities_.length = MAX_ENTITIES ∧
      0 < c6em.living_entity_count_ ∧ (5 : Entity) ∉ c6em.available_entities_ ∧
      c6em.remove_entity 5 = some c6em') ∧
    (c6em'.available_entities_ = c6em.available_entities_ ++ [5] ∧
      (∀ x ∈ c6em.available_entities_, x ≠ 5) ∧
      ∃ em'', addEntityN c6em' c6em.available_entities_.length =
          some (c6em.available_entities_, em'') ∧
        ∃ emf, em''.add_entity = some (5, emf) ∧ emf.signatures_ 5 = ∅) :=
  ⟨⟨by decide, by decide, by decide, rfl⟩,
    entityManager_fifo_recycling c6em c6em' 5 (by decide) (by decide) (by decide) rfl⟩

/-!
## System dispatcher claims (C9)
-/

/-- C9. `set_signature` changes only the stored required signature of
the targeted system kind: the systems map (hence every registered
system's match set) is unchanged, the target's required signature becomes
the given one, and every other kind's stored signature is untouched.
Already-live entities are not rescanned. -/
theorem systemManager_set_signature_frame (sm sm' : SystemManager) (k : Nat)
    (sig : Signature) (h : sm.set_signature k sig = some sm') :
    sm'.systems_ = sm.systems_ ∧
    (∀ k' s, sm.systems_ k' = some s → sm'.systems_ k' = some s) ∧
    sm'.signatures_ k = some sig ∧
    (∀ k', k' ≠ k → sm'.signatures_ k' = sm.signatures_ k') := by
  unfold SystemManager.set_signature at h
  by_cases hk : (sm.systems_ k).isSome = true
  · rw [if_pos hk] at h
    simp only [Option.some.injEq] at h
    subst h
    refine ⟨rfl, fun k' s hs => hs, ?_, ?_⟩
    · dsimp only
      rw [if_pos rfl]
    · intro k' hk'
      dsimp only
      rw [if_neg hk']
  · rw [if_neg hk] at h
    cases h

def c9sig : Signature := {(⟨0, by decide⟩ : Fin MAX_COMPONENTS)}

def c9sm : SystemManager :=
  { signatures_ := fun _ => none
    systems_ := fun k => if k = 0 then some { entities_ := {1, 2} } else none }

def c9sm' : SystemManager := (c9sm.set_signature 0 c9sig).getD c9sm

theorem systemManager_set_signature_frame_witness :
    c9sm.set_signature 0 c9sig = some c9sm' ∧
    (c9sm'.systems_ = c9sm.systems_ ∧
      (∀ k' s, c9sm.systems_ k' = some s → c9sm'.systems_ k' = some s) ∧
      c9sm'.signatures_ 0 = some c9sig ∧
      (∀ k', k' ≠ 0 → c9sm'.signatures_ k' = c9sm.signatures_ k')) :=
  ⟨rfl, systemManager_set_signature_frame c9sm c9sm' 0 c9sig rfl⟩

/-!
## Component registry registration (C8)
-/

/-- Register each listed type key in order (src/src revision). -/
def regAll (cm : ComponentManager Nat) : List Nat → Option (ComponentManager Nat)
  | [] => some cm
  | t :: ts =>
    match cm.register_component_array t with
    | none => none
    | some cm' => regAll cm' ts

def c8cm32 : ComponentManager Nat :=
  (regAll ComponentManager.init (List.range 32)).getD ComponentManager.init

/-- C8 counterexample: after 32 successful registrations the slot counter
has reached `MAX_COMPONENT_TYPES`, yet in the src/src/ecs revision the
33rd registration of a fresh type succeeds (and assigns slot 32, beyond
the signature width) instead of failing fatally. -/
theorem componentManager_register_capacity_unchecked :
    regAll ComponentManager.init (List.range 32) = some c8cm32 ∧
    c8cm32.next_sequenced_component_type_ = MAX_COMPONENT_TYPES ∧
    (c8cm32.register_component_array 32).isSome = true ∧
    ((c8cm32.register_component_array 32).getD c8cm32).component_types_ 32 = some 32 :=
  ⟨rfl, by decide, by decide, by decide⟩

/-- C8 amended. Registration fails fatally on a duplicate type in both
revisions; the capacity precondition (`MAX_COMPONENT_TYPES`) is enforced
only in the src/unnamed/part_000 revision — the src/src/ecs revision
accepts registrations past the cap. On success (either revision's
success case for the src/src code path) the new type receives the next
sequential slot, the counter advances by one, no other type's slot
changes, and — provided all existing slots are below the counter — the
new slot differs from every existing one (slots are never reused; the
registry has no unregister operation). -/
theorem componentManager_register_slots {α : Type} [Inhabited α]
    (cm cm' : ComponentManager α) (tkey : Nat)
    (hfresh : ∀ t slot, cm.component_types_ t = some slot →
      slot < cm.next_sequenced_component_type_) :
    (cm.register_component_array tkey = none ↔
      (cm.component_types_ tkey).isSome = true) ∧
    (cm.register_component_array_variant tkey = none ↔
      ((cm.component_types_ tkey).isSome = true ∨
        MAX_COMPONENT_TYPES ≤ cm.next_sequenced_component_type_)) ∧
    (cm.register_component_array tkey = some cm' →
      cm'.component_types_ tkey = some cm.next_sequenced_component_type_ ∧
      cm'.next_sequenced_component_type_ = cm.next_sequenced_component_type_ + 1 ∧
      (∀ t, t ≠ tkey → cm'.component_types_ t = cm.component_types_ t) ∧
      (∀ t slot, cm'.component_types_ t = some slot →
        slot < cm'.next_sequenced_component_type_) ∧
      (∀ t slot, t ≠ tkey → cm'.component_types_ t = some slot →
        slot ≠ cm.next_sequenced_component_type_)) := by
  unfold ComponentManager.register_component_array
    ComponentManager.register_component_array_variant
  by_cases hdup : (cm.component_types_ tkey).isSome = true
  · rw [if_pos hdup, if_pos hdup]
    exact ⟨⟨fun _ => hdup, fun _ => rfl⟩, ⟨fun _ => Or.inl hdup, fun _ => rfl⟩,
      fun hc => by cases hc⟩
  · rw [if_neg hdup, if_neg hdup]
    refine ⟨⟨(fun hc => by cases hc), fun hc => absurd hc hdup⟩, ?_, ?_⟩
    · by_cases hcap : cm.next_sequenced_component_type_ < MAX_COMPONENT_TYPES
      · rw [if_pos hcap]
        exact ⟨(fun hc => by cases hc), fun hc => by
          cases hc with
          | inl h => exact absurd h hdup
          | inr h => omega⟩
      · rw [if_neg hcap]
        exact ⟨fun _ => Or.inr (Nat.not_lt.mp hcap), fun _ => rfl⟩
    · intro hs
      simp only [Option.some.injEq] at hs
      subst hs
      refine ⟨updMap_same _ _ _, rfl, ?_, ?_, ?_⟩
      · intro t ht
        exact updMap_other _ _ _ _ ht
      · intro t slot hts
        dsimp only at hts ⊢
        by_cases ht : t = tkey
        · subst ht
          rw [updMap_same] at hts
          cases hts
          omega
        · rw [updMap_other _ _ _ _ ht] at hts
          have := hfresh t slot hts
          omega
      · intro t slot ht hts
        dsimp only at hts
        rw [updMap_other _ _ _ _ ht] at hts
        have := hfresh t slot hts
        omega

def c8cm : ComponentManager Nat :=
  { component_types_ := fun t => if t = 10 then some 0 else if t = 11 then some 1 else none
    component_arrays_ := fun t =>
      if t = 10 then some ComponentArray.init
      else if t = 11 then some ComponentArray.init else none
    next_sequenced_component_type_ := 2 }

def c8cm' : ComponentManager Nat := (c8cm.register_component_array 5).getD c8cm

theorem componentManager_register_slots_witness :
    (∀ t slot, c8cm.component_types_ t = some slot →
      slot < c8cm.next_sequenced_component_type_) ∧
    c8cm.register_component_array 5 = some c8cm' ∧
    ((c8cm.register_component_array 5 = none ↔
        (c8cm.component_types_ 5).isSome = true) ∧
      (c8cm.register_component_array_variant 5 = none ↔
        ((c8cm.component_types_ 5).isSome = true ∨
          MAX_COMPONENT_TYPES ≤ c8cm.next_sequenced_component_type_)) ∧
      (c8cm.register_component_array 5 = some c8cm' →
        c8cm'.component_types_ 5 = some c8cm.next_sequenced_component_type_ ∧
        c8cm'.next_sequenced_component_type_ = c8cm.next_sequenced_component_type_ + 1 ∧
        (∀ t, t ≠ 5 → c8cm'.component_types_ t = c8cm.component_types_ t) ∧
        (∀ t slot, c8cm'.component_types_ t = some slot →
          slot < c8cm'.next_sequenced_component_type_) ∧
        (∀ t slot, t ≠ 5 → c8cm'.component_types_ t = some slot →
          slot ≠ c8cm.next_sequenced_component_type_))) := by
  have hfresh : ∀ t slot, c8cm.component_types_ t = some slot →
      slot < c8cm.next_sequenced_component_type_ := by
    intro t slot h
    show slot < 2
    by_cases h10 : t = 10
    · simp [c8cm, h10] at h
      omega
    · by_cases h11 : t = 11
      · simp [c8cm, h10, h11] at h
        omega
      · simp [c8cm, h10, h11] at h
  exact ⟨hfresh, rfl, componentManager_register_slots c8cm c8cm' 5 hfresh⟩

/-!
## World facade claims (C2, C5)
-/

/-- After `entity_signature_changed(e, sig)`, the changed entity's
membership in every registered system's match set is exactly
`(sig & required) == required` (with an unset required signature read as
all-zero, as `operator[]` does). -/
theorem esc_membership (sm : SystemManager) (e : Entity) (sig : Signature)
    (k : Nat) (s : System)
    (hs : (sm.entity_signature_changed e sig).systems_ k = some s) :
    e ∈ s.entities_ ↔
      sig ∩ (sm.signatures_ k).getD ∅ = (sm.signatures_ k).getD ∅ := by
  unfold SystemManager.entity_signature_changed at hs
  dsimp only at hs
  cases hk : sm.systems_ k with
  | none => rw [hk] at hs; cases hs
  | some s0 =>
    rw [hk] at hs
    dsimp only at hs
    by_cases hcond : sig ∩ (sm.signatures_ k).getD ∅ = (sm.signatures_ k).getD ∅
    · rw [if_pos hcond] at hs
      simp only [Option.some.injEq] at hs
      subst hs
      exact ⟨fun _ => hcond, fun _ => Finset.mem_insert_self e s0.entities_⟩
    · rw [if_neg hcond] at hs
      simp only [Option.some.injEq] at hs
      subst hs
      exact ⟨fun hmem => absurd hmem (Finset.not_mem_erase e s0.entities_),
        fun hc => absurd hc hcond⟩

/-- C2. Immediately after any add-component or remove-component call on
`e` through the World facade, `e` is in a registered system's match set
iff `(signature(e) & required(s)) == required(s)`, where `signature(e)`
is `e`'s signature after the call (an unset required signature reads as
all-zero). -/
theorem world_signature_propagation {α : Type} (w w' : World α) (tkey : Nat)
    (e : Entity) (v : α)
    (h : w.add_component tkey e v = some w' ∨ w.remove_component tkey e = some w') :
    ∀ k s, w'.system_manager_.systems_ k = some s →
      (e ∈ s.entities_ ↔
        w'.entity_manager_.signatures_ e ∩ (w'.system_manager_.signatures_ k).getD ∅
          = (w'.system_manager_.signatures_ k).getD ∅) := by
  cases h with
  | inl h =>
    unfold World.add_component at h
    split at h
    · cases h
    case _ cm' hcm =>
      split at h
      · cases h
      case _ slot hslot =>
        split at h
        · cases h
        case _ sig0 hsig0 =>
          split at h
          · cases h
          case _ sig hsig =>
            split at h
            · cases h
            case _ em' hem =>
              simp only [Option.some.injEq] at h
              subst h
              intro k s hs
              dsimp only at hs ⊢
              have hsigs : em'.signatures_ e = sig := by
                unfold EntityManager.set_signature at hem
                by_cases hr : e < MAX_ENTITIES
                · rw [if_pos hr] at hem
                  simp only [Option.some.injEq] at hem
                  subst hem
                  dsimp only
                  rw [if_pos rfl]
                · rw [if_neg hr] at hem
                  cases hem
              rw [hsigs]
              exact esc_membership w.system_manager_ e sig k s hs
  | inr h =>
    unfold World.remove_component at h
    split at h
    · cases h
    case _ cm' hcm =>
      split at h
      · cases h
      case _ slot hslot =>
        split at h
        · cases h
        case _ sig0 hsig0 =>
          split at h
          · cases h
          case _ sig hsig =>
            split at h
            · cases h
            case _ em' hem =>
              simp only [Option.some.injEq] at h
              subst h
              intro k s hs
              dsimp only at hs ⊢
              have hsigs : em'.signatures_ e = sig := by
                unfold EntityManager.set_signature at hem
                by_cases hr : e < MAX_ENTITIES
                · rw [if_pos hr] at hem
                  simp only [Option.some.injEq] at hem
                  subst hem
                  dsimp only
                  rw [if_pos rfl]
                · rw [if_neg hr] at hem
                  cases hem
              rw [hsigs]
              exact esc_membership w.system_manager_ e sig k s hs

/-- The concrete world used as witness for C2 and C5: component type 7
registered at slot 0, one live entity (id 0), and system kind 3
registered with required signature `{slot 0}`. -/
def c2sig : Signature := {(⟨0, by decide⟩ : Fin MAX_COMPONENTS)}

def c2w : World Nat :=
  { component_manager_ :=
      { component_types_ := fun t => if t = 7 then some 0 else none
        component_arrays_ := fun t => if t = 7 then some ComponentArray.init else none
        next_sequenced_component_type_ := 1 }
    entity_manager_ :=
      { available_entities_ := [], signatures_ := fun _ => ∅, living_entity_count_ := 1 }
    system_manager_ :=
      { signatures_ := fun k => if k = 3 then some c2sig else none
        systems_ := fun k => if k = 3 then some { entities_ := ∅ } else none } }

def c2w' : World Nat := (c2w.add_component 7 0 42).getD c2w

theorem world_signature_propagation_witness :
    c2w.add_component 7 0 42 = some c2w' ∧
    (∀ k s, c2w'.system_manager_.systems_ k = some s →
      ((0 : Entity) ∈ s.entities_ ↔
        c2w'.entity_manager_.signatures_ 0 ∩
            (c2w'.system_manager_.signatures_ k).getD ∅
          = (c2w'.system_manager_.signatures_ k).getD ∅)) :=
  ⟨rfl, world_signature_propagation c2w c2w' 7 0 42 (Or.inl rfl)⟩

/-- After the `entity_destroyed` hook the store no longer holds the
entity. -/
theorem entity_destroyed_has_self {α : Type} (a : ComponentArray α) (e : Entity) :
    (a.entity_destroyed e).has e = false := by
  unfold ComponentArray.entity_destroyed
  by_cases hp : (a.entity_to_index_ e).isSome = true
  · rw [if_pos hp]
    obtain ⟨i, hi⟩ := Option.isSome_iff_exists.mp hp
    unfold ComponentArray.remove
    rw [hi]
    dsimp only
    by_cases hil : i ≠ (a.size_ + (U64 - 1)) % U64
    · rw [if_pos hil]
      show (updMap _ e none e).isSome = false
      rw [updMap_same]
      rfl
    · rw [if_neg hil]
      show (updMap _ e none e).isSome = false
      rw [updMap_same]
      rfl
  · rw [if_neg hp]
    exact Bool.eq_false_iff.mpr hp

/-- C5. Destroying a live entity through the World facade leaves the
entity with an all-zero signature, absent from every registered component
store (`has` is false), and member of no system's match set. The
facade call is a single synchronous operation, so the caller observes
only the final state. -/
theorem world_destroy_cascade {α : Type} (w w' : World α) (e : Entity)
    (h : w.remove_entity e = some w') :
    w'.entity_manager_.signatures_ e = ∅ ∧
    (∀ tkey arr, w'.component_manager_.component_arrays_ tkey = some arr →
      arr.has e = false) ∧
    (∀ k s, w'.system_manager_.systems_ k = some s → e ∉ s.entities_) := by
  unfold World.remove_entity at h
  split at h
  · cases h
  case _ em' hem =>
    simp only [Option.some.injEq] at h
    subst h
    refine ⟨?_, ?_, ?_⟩
    · unfold EntityManager.remove_entity at hem
      by_cases hr : e < MAX_ENTITIES
      · rw [if_pos hr] at hem
        simp only [Option.some.injEq] at hem
        subst hem
        dsimp only
        rw [if_pos rfl]
      · rw [if_neg hr] at hem
        cases hem
    · intro tkey arr harr
      dsimp only at harr
      unfold ComponentManager.entity_destroyed at harr
      dsimp only at harr
      cases ha : w.component_manager_.component_arrays_ tkey with
      | none => rw [ha] at harr; cases harr
      | some arr0 =>
        rw [ha] at harr
        simp only [Option.map_some', Option.some.injEq] at harr
        subst harr
        exact entity_destroyed_has_self arr0 e
    · intro k s hs
      dsimp only at hs
      unfold SystemManager.entity_destroyed at hs
      dsimp only at hs
      cases hk : w.system_manager_.systems_ k with
      | none => rw [hk] at hs; cases hs
      | some s0 =>
        rw [hk] at hs
        simp only [Option.map_some', Option.some.injEq] at hs
        subst hs
        exact Finset.not_mem_erase e s0.entities_

/-!
## World traces and the match-set invariant (C1)

`WorldOp` is one mutating facade call; `runWorld` runs a trace from a
given world. The ghost flag `gRun g0 ops k e` is true when entity `e`
has had a signature-change event (a component add/remove through the
facade) since system kind `k` was registered and since `k`'s required
signature was last set, with no destruction of `e` since that event —
exactly the entities for which the dispatcher has had a chance to
recompute `k`'s interest in `e`.
-/

inductive WorldOp (α : Type) where
  | registerComponent (tkey : Nat)
  | addEntity
  | removeEntity (e : Entity)
  | addComponent (tkey : Nat) (e : Entity) (v : α)
  | removeComponent (tkey : Nat) (e : Entity)
  | registerSystem (k : Nat)
  | setSystemSignature (k : Nat) (tkeys : List Nat)

def WorldOp.step {α : Type} [Inhabited α] (w : World α) : WorldOp α → Option (World α)
  | .registerComponent tkey => w.register_component tkey
  | .addEntity =>
    match w.add_entity with
    | none => none
    | some (_, w') => some w'
  | .removeEntity e => w.remove_entity e
  | .addComponent tkey e v => w.add_component tkey e v
  | .removeComponent tkey e => w.remove_component tkey e
  | .registerSystem k => w.register_system k
  | .setSystemSignature k tkeys => w.set_system_signature k tkeys

def runWorld {α : Type} [Inhabited α] : World α → List (WorldOp α) → Option (World α)
  | w, [] => some w
  | w, op :: rest =>
    match WorldOp.step w op with
    | none => none
    | some w' => runWorld w' rest

def gStep {α : Type} (g : Nat → Entity → Bool) : WorldOp α → Nat → Entity → Bool
  | .registerSystem k => fun k' e' => if k' = k then false else g k' e'
  | .setSystemSignature k _ => fun k' e' => if k' = k then false else g k' e'
  | .addComponent _ e _ => fun k' e' => if e' = e then true else g k' e'
  | .removeComponent _ e => fun k' e' => if e' = e then true else g k' e'
  | .removeEntity e => fun k' e' => if e' = e then false else g k' e'
  | .registerComponent _ => g
  | .addEntity => g

def gRun {α : Type} : (Nat → Entity → Bool) → List (WorldOp α) → Nat → Entity → Bool
  | g, [] => g
  | g, op :: rest => gRun (gStep g op) rest

/-- The match-set invariant, relativized to the ghost flag: wherever the
flag is set, membership in the system's match set agrees with
`(signature(e) & required) == required`. -/
def MatchInv {α : Type} (w : World α) (g : Nat → Entity → Bool) : Prop :=
  ∀ k s e, w.system_manager_.systems_ k = some s → g k e = true →
    (e ∈ s.entities_ ↔
      w.entity_manager_.signatures_ e ∩ (w.system_manager_.signatures_ k).getD ∅
        = (w.system_manager_.signatures_ k).getD ∅)

/-- `entity_signature_changed` leaves the membership of every other
entity unchanged. -/
theorem esc_membership_other (sm : SystemManager) (e : Entity) (sig : Signature)
    (k : Nat) (s : System) (e2 : Entity) (hne : e2 ≠ e)
    (hs : (sm.entity_signature_changed e sig).systems_ k = some s) :
    ∃ s0, sm.systems_ k = some s0 ∧ (e2 ∈ s.entities_ ↔ e2 ∈ s0.entities_) := by
  unfold SystemManager.entity_signature_changed at hs
  dsimp only at hs
  cases hk : sm.systems_ k with
  | none => rw [hk] at hs; cases hs
  | some s0 =>
    rw [hk] at hs
    dsimp only at hs
    refine ⟨s0, rfl, ?_⟩
    by_cases hcond : sig ∩ (sm.signatures_ k).getD ∅ = (sm.signatures_ k).getD ∅
    · rw [if_pos hcond] at hs
      simp only [Option.some.injEq] at hs
      subst hs
      simp [Finset.mem_insert, hne]
    · rw [if_neg hcond] at hs
      simp only [Option.some.injEq] at hs
      subst hs
      simp [Finset.mem_erase, hne]

/-- `SystemManager.entity_destroyed` leaves the membership of every other
entity unchanged. -/
theorem sm_entity_destroyed_other (sm : SystemManager) (e : Entity)
    (k : Nat) (s : System) (e2 : Entity) (hne : e2 ≠ e)
    (hs : (sm.entity_destroyed e).systems_ k = some s) :
    ∃ s0, sm.systems_ k = some s0 ∧ (e2 ∈ s.entities_ ↔ e2 ∈ s0.entities_) := by
  unfold SystemManager.entity_destroyed at hs
  dsimp only at hs
  cases hk : sm.systems_ k with
  | none => rw [hk] at hs; cases hs
  | some s0 =>
    rw [hk] at hs
    simp only [Option.map_some', Option.some.injEq] at hs
    subst hs
    exact ⟨s0, rfl, by simp [Finset.mem_erase, hne]⟩

/-- `add_entity` never touches the signature array. -/
theorem add_entity_preserves_signatures (em : EntityManager) (p : Entity × EntityManager)
    (h : em.add_entity = some p) : p.2.signatures_ = em.signatures_ := by
  unfold EntityManager.add_entity at h
  by_cases hl : em.living_entity_count_ < MAX_ENTITIES
  · rw [if_pos hl] at h
    cases hq : em.available_entities_ with
    | nil => rw [hq] at h; cases h
    | cons a rest =>
      rw [hq] at h
      simp only [Option.some.injEq] at h
      subst h
      rfl
  · rw [if_neg hl] at h
    cases h

/-- `set_signature` stores exactly the given signature for the entity and
leaves all others unchanged. -/
theorem set_signature_spec (em em' : EntityManager) (e : Entity) (sig : Signature)
    (h : em.set_signature e sig = some em') :
    ∀ x, em'.signatures_ x = if x = e then sig else em.signatures_ x := by
  unfold EntityManager.set_signature at h
  by_cases hr : e < MAX_ENTITIES
  · rw [if_pos hr] at h
    simp only [Option.some.injEq] at h
    subst h
    intro x
    rfl
  · rw [if_neg hr] at h
    cases h

/-- A signature-change event (the common tail of the facade's add/remove
component calls) re-establishes the relativized invariant with the
changed entity's flag set. -/
theorem matchInv_sigchange {α : Type} {w : World α} {g : Nat → Entity → Bool}
    {e : Entity} {sig : Signature} {em' : EntityManager} {cm' : ComponentManager α}
    (hinv : MatchInv w g)
    (hem : w.entity_manager_.set_signature e sig = some em') :
    MatchInv
      { component_manager_ := cm', entity_manager_ := em',
        system_manager_ := w.system_manager_.entity_signature_changed e sig }
      (fun k' e' => if e' = e then true else g k' e') := by
  intro k s e2 hs hg
  dsimp only at hs ⊢
  have hsig2 := set_signature_spec _ _ _ _ hem
  have hreq : (SystemManager.entity_signature_changed w.system_manager_ e sig).signatures_
      = w.system_manager_.signatures_ := rfl
  rw [hreq]
  by_cases he2 : e2 = e
  · subst he2
    rw [hsig2 e2, if_pos rfl]
    exact esc_membership w.system_manager_ e2 sig k s hs
  · rw [hsig2 e2, if_neg he2]
    simp only [if_neg he2] at hg
    obtain ⟨s0, hk0, hmem⟩ := esc_membership_other w.system_manager_ e sig k s e2 he2 hs
    rw [hmem]
    exact hinv k s0 e2 hk0 hg

/-- One facade step preserves the relativized match-set invariant. -/
theorem matchInv_step {α : Type} [Inhabited α] {w w' : World α} {g : Nat → Entity → Bool}
    (op : WorldOp α) (hinv : MatchInv w g) (h : WorldOp.step w op = some w') :
    MatchInv w' (gStep g op) := by
  cases op with
  | registerComponent tkey =>
    simp only [WorldOp.step] at h
    unfold World.register_component at h
    split at h
    · cases h
    case _ cm' hcm =>
      simp only [Option.some.injEq] at h
      subst h
      intro k s e2 hs hg
      exact hinv k s e2 hs hg
  | addEntity =>
    simp only [WorldOp.step] at h
    split at h
    · cases h
    case _ e0 w1 hp =>
      simp only [Option.some.injEq] at h
      subst h
      unfold World.add_entity at hp
      split at hp
      · cases hp
      case _ e1 em1 hem =>
        simp only [Option.some.injEq, Prod.mk.injEq] at hp
        obtain ⟨-, hw1⟩ := hp
        subst hw1
        have hpres := add_entity_preserves_signatures _ _ hem
        intro k s e2 hs hg
        dsimp only at hs ⊢
        rw [hpres]
        exact hinv k s e2 hs hg
  | removeEntity e =>
    simp only [WorldOp.step] at h
    unfold World.remove_entity at h
    split at h
    · cases h
    case _ em' hem =>
      simp only [Option.some.injEq] at h
      subst h
      intro k s e2 hs hg
      simp only [gStep] at hg
      dsimp only at hs ⊢
      by_cases he2 : e2 = e
      · rw [if_pos he2] at hg
        cases hg
      · rw [if_neg he2] at hg
        obtain ⟨s0, hk0, hmem⟩ := sm_entity_destroyed_other w.system_manager_ e k s e2 he2 hs
        have hsigp : em'.signatures_ e2 = w.entity_manager_.signatures_ e2 := by
          unfold EntityManager.remove_entity at hem
          by_cases hr : e < MAX_ENTITIES
          · rw [if_pos hr] at hem
            simp only [Option.some.injEq] at hem
            subst hem
            dsimp only
            rw [if_neg he2]
          · rw [if_neg hr] at hem
            cases hem
        have hreq : (SystemManager.entity_destroyed w.system_manager_ e).signatures_
            = w.system_manager_.signatures_ := rfl
        rw [hreq, hsigp, hmem]
        exact hinv k s0 e2 hk0 hg
  | addComponent tkey e v =>
    simp only [WorldOp.step] at h
    unfold World.add_component at h
    split at h
    · cases h
    case _ cm' hcm =>
      split at h
      · cases h
      case _ slot hslot =>
        split at h
        · cases h
        case _ sig0 hsig0 =>
          split at h
          · cases h
          case _ sig hsig =>
            split at h
            · cases h
            case _ em' hem =>
              simp only [Option.some.injEq] at h
              subst h
              exact matchInv_sigchange hinv hem
  | removeComponent tkey e =>
    simp only [WorldOp.step] at h
    unfold World.remove_component at h
    split at h
    · cases h
    case _ cm' hcm =>
      split at h
      · cases h
      case _ slot hslot =>
        split at h
        · cases h
        case _ sig0 hsig0 =>
          split at h
          · cases h
          case _ sig hsig =>
            split at h
            · cases h
            case _ em' hem =>
              simp only [Option.some.injEq] at h
              subst h
              exact matchInv_sigchange hinv hem
  | registerSystem k =>
    simp only [WorldOp.step] at h
    unfold World.register_system at h
    split at h
    · cases h
    case _ sm' hsm =>
      simp only [Option.some.injEq] at h
      subst h
      unfold SystemManager.register_system at hsm
      by_cases hk : (w.system_manager_.systems_ k).isSome = true
      · rw [if_pos hk] at hsm
        cases hsm
      · rw [if_neg hk] at hsm
        simp only [Option.some.injEq] at hsm
        subst hsm
        intro k2 s e2 hs hg
        simp only [gStep] at hg
        dsimp only at hs ⊢
        by_cases hk2 : k2 = k
        · rw [if_pos hk2] at hg
          cases hg
        · rw [if_neg hk2] at hg
          rw [if_neg hk2] at hs
          exact hinv k2 s e2 hs hg
  | setSystemSignature k tkeys =>
    simp only [WorldOp.step] at h
    unfold World.set_system_signature at h
    split at h
    · cases h
    case _ sig hbuild =>
      split at h
      · cases h
      case _ sm' hsm =>
        simp only [Option.some.injEq] at h
        subst h
        unfold SystemManager.set_signature at hsm
        by_cases hk : (w.system_manager_.systems_ k).isSome = true
        · rw [if_pos hk] at hsm
          simp only [Option.some.injEq] at hsm
          subst hsm
          intro k2 s e2 hs hg
          simp only [gStep] at hg
          dsimp only at hs ⊢
          by_cases hk2 : k2 = k
          · rw [if_pos hk2] at hg
            cases hg
          · rw [if_neg hk2] at hg
            rw [if_neg hk2]
            exact hinv k2 s e2 hs hg
        · rw [if_neg hk] at hsm
          cases hsm

/-- Running any successful trace preserves the relativized invariant. -/
theorem matchInv_run {α : Type} [Inhabited α] :
    ∀ (ops : List (WorldOp α)) (w w' : World α) (g : Nat → Entity → Bool),
    MatchInv w g → runWorld w ops = some w' → MatchInv w' (gRun g ops) := by
  intro ops
  induction ops with
  | nil =>
    intro w w' g hinv h
    simp only [runWorld, Option.some.injEq] at h
    subst h
    exact hinv
  | cons op rest ih =>
    intro w w' g hinv h
    simp only [runWorld] at h
    cases hop : WorldOp.step w op with
    | none => rw [hop] at h; cases h
    | some w1 =>
      rw [hop] at h
      exact ih w1 w' _ (matchInv_step op hinv hop) h

/-- C1 amended. For a freshly constructed World and any successful trace
of facade calls: for every registered system `k` and every entity `e`
that has had a signature-change event since `k`'s registration and since
`k`'s required signature was last set, and has not been destroyed since
(`gRun ... k e = true`), `e` is in `k`'s match set iff
`(signature(e) & required(k)) == required(k)`. Without that proviso the
invariant fails (see the counterexample): a system registered late, or
whose required signature is set after entities' signatures already
changed, does not rescan existing entities. -/
theorem world_match_inv_conditional {α : Type} [Inhabited α] (ops : List (WorldOp α))
    (w : World α) (k : Nat) (s : System) (e : Entity)
    (hrun : runWorld World.init ops = some w)
    (hs : w.system_manager_.systems_ k = some s)
    (hg : gRun (fun _ _ => false) ops k e = true) :
    e ∈ s.entities_ ↔
      w.entity_manager_.signatures_ e ∩ (w.system_manager_.signatures_ k).getD ∅
        = (w.system_manager_.signatures_ k).getD ∅ :=
  matchInv_run ops World.init w _ (fun _ _ _ _ hg0 => by cases hg0) hrun k s e hs hg

/-- Witness trace for the amended C1: component type 0 registered, then
system 0 registered and its required signature set, then an entity is
created and given component 0 — from that event on the flag for
(system 0, entity 0) is set and membership is exact. -/
def c1wops : List (WorldOp Nat) :=
  [.registerComponent 0, .registerSystem 0, .setSystemSignature 0 [0],
   .addEntity, .addComponent 0 0 37]

def c1ww : World Nat := (runWorld World.init c1wops).getD World.init

theorem world_match_inv_conditional_witness :
    runWorld World.init c1wops = some c1ww ∧
    c1ww.system_manager_.systems_ 0
      = some ((c1ww.system_manager_.systems_ 0).getD { entities_ := ∅ }) ∧
    gRun (fun _ _ => false) c1wops 0 0 = true ∧
    ((0 : Entity) ∈ ((c1ww.system_manager_.systems_ 0).getD { entities_ := ∅ }).entities_ ↔
      c1ww.entity_manager_.signatures_ 0 ∩ (c1ww.system_manager_.signatures_ 0).getD ∅
        = (c1ww.system_manager_.signatures_ 0).getD ∅) :=
  ⟨rfl, rfl, by decide,
    world_match_inv_conditional c1wops c1ww 0
      ((c1ww.system_manager_.systems_ 0).getD { entities_ := ∅ }) 0 rfl rfl (by decide)⟩

/-- The trace refuting C1 as stated: an entity receives its component
before the system is registered and before the system's required
signature is set. -/
def c1ops : List (WorldOp Nat) :=
  [.registerComponent 0, .addEntity, .addComponent 0 0 37,
   .registerSystem 0, .setSystemSignature 0 [0]]

def c1w : World Nat := (runWorld World.init c1ops).getD World.init

/-- C1 counterexample: in the reachable state after `c1ops`, system 0 is
registered, the (unique) live entity 0 satisfies
`(signature(0) & required(0)) == required(0)`, yet system 0's match set
is empty — the unrelativized invariant "match set = { e : cond e }" is
false at an observable point between mutating calls. -/
theorem world_match_inv_violation :
    runWorld World.init c1ops = some c1w ∧
    c1w.entity_manager_.living_entity_count_ = 1 ∧
    (c1w.system_manager_.systems_ 0).isSome = true ∧
    c1w.entity_manager_.signatures_ 0 ∩ (c1w.system_manager_.signatures_ 0).getD ∅
      = (c1w.system_manager_.signatures_ 0).getD ∅ ∧
    ((c1w.system_manager_.systems_ 0).getD { entities_ := ∅ }).entities_ = ∅ ∧
    (0 : Entity) ∉ ((c1w.system_manager_.systems_ 0).getD { entities_ := ∅ }).entities_ :=
  ⟨rfl, by decide, by decide, by decide, by decide, by decide⟩

def c5w' : World Nat := (c2w'.remove_entity 0).getD c2w'

theorem world_destroy_cascade_witness :
    c2w'.remove_entity 0 = some c5w' ∧
    (c5w'.entity_manager_.signatures_ 0 = ∅ ∧
      (∀ tkey arr, c5w'.component_manager_.component_arrays_ tkey = some arr →
        arr.has 0 = false) ∧
      (∀ k s, c5w'.system_manager_.systems_ k = some s → (0 : Entity) ∉ s.entities_)) :=
  ⟨rfl, world_destroy_cascade c2w' c5w' 0 rfl⟩
